import Mathlib

/-!
Verification of the DomainLens repository: the exact-match domain index
(src/domain/matcher.rs) and the concurrency-bounded UDP DNS server
(src/dns/server.rs, src/dns/mod.rs).

Domain strings are embedded as their byte sequences (List Nat), since the
underlying trie is keyed by bytes.  Machine-integer casts that appear in the
source (`k as i32` in DomainRule::new, `index as usize` in
DomainRule::get_domain_by_index) are embedded with explicit two's-complement
wrapping.
-/

/-- Rust `k as i32` for `k : usize`: truncate to the low 32 bits and
reinterpret as a signed 32-bit integer. -/
def i32ofNat (k : Nat) : Int :=
  if k % 2 ^ 32 < 2 ^ 31 then ((k % 2 ^ 32 : Nat) : Int)
  else ((k % 2 ^ 32 : Nat) : Int) - 2 ^ 32

/-- Rust `i as usize` for `i : i32` on a 64-bit target: sign-extend and
reinterpret as an unsigned 64-bit integer. -/
def usizeOfI32 (i : Int) : Nat := (i % 2 ^ 64).toNat

/-- Modelled from the spec: the `cedarwood` crate's `Cedar` double-array trie
is an external dependency whose code is not in this repository.  The spec
describes it as "a trie-like structure supporting exact-string lookup keyed by
byte sequence" associating each key with a value; we model it as the list of
(key, value) pairs it was built from. -/
structure Cedar where
  entries : List (List Nat × Int)
deriving DecidableEq

/-- Modelled from the spec: `Cedar::build` records the key-value pairs. -/
def Cedar.build (key_values : List (List Nat × Int)) : Cedar :=
  ⟨key_values⟩

/-- Modelled from the spec: `Cedar::exact_match_search` succeeds exactly when
the query equals a stored key in full ("success requires that traversal ends
exactly on a key-terminal node consuming the entire query"), returning the
stored value and the byte length of the matched key. -/
def Cedar.exact_match_search (c : Cedar) (key : List Nat) : Option (Int × Nat) :=
  (c.entries.find? (fun p => p.1 == key)).map (fun p => (p.2, p.1.length))

/-- src/domain/matcher.rs `MatchResult`: `index : i32`, `matched_len : usize`. -/
structure MatchResult where
  index : Int
  matched_len : Nat
deriving DecidableEq

/-- src/domain/matcher.rs `DomainRule`.  The source names the fields
prefix_rule and prefix_dict; they are renamed here to trie and dict.
The dict field is the debug-build reverse dictionary. -/
structure DomainRule where
  trie : Cedar
  dict : List (List Nat)
deriving DecidableEq

/-- src/domain/matcher.rs `DomainRule::new`: enumerate the dictionary,
cast each position with `k as i32`, and build the trie. -/
def DomainRule.new (dict : List (List Nat)) : DomainRule :=
  let key_values := dict.enum.map (fun p => (p.2, i32ofNat p.1))
  { trie := Cedar.build key_values, dict := dict }

/-- src/domain/matcher.rs `DomainRule::search_domain`. -/
def DomainRule.search_domain (r : DomainRule) (domain : List Nat) :
    Option MatchResult :=
  match r.trie.exact_match_search domain with
  | some p => some { index := p.1, matched_len := p.2 }
  | none => none

/-- src/domain/matcher.rs `DomainRule::get_domain_by_index` (debug builds):
`self.prefix_dict.get(index as usize)`. -/
def DomainRule.get_domain_by_index (r : DomainRule) (index : Int) :
    Option (List Nat) :=
  r.dict.get? (usizeOfI32 index)

/-! ### Basic lemmas about the index -/

lemma i32ofNat_of_lt {k : Nat} (h : k < 2 ^ 31) : i32ofNat k = (k : Int) := by
  have h32 : k % 2 ^ 32 = k := Nat.mod_eq_of_lt (by omega)
  unfold i32ofNat
  rw [h32, if_pos h]

/-- The first entry of the built key-value list whose key is `d` is the entry
coming from the first occurrence of `d` in the dictionary.  Stated for
`enumFrom` so the induction goes through. -/
lemma find_entry_enumFrom (l : List (List Nat)) (hnd : l.Nodup) (n i : Nat)
    (d : List Nat) (h : l.get? i = some d) :
    ((l.enumFrom n).map (fun p => (p.2, i32ofNat p.1))).find?
        (fun p => p.1 == d) = some (d, i32ofNat (n + i)) := by
  induction l generalizing n i with
  | nil => simp at h
  | cons a t ih =>
    cases i with
    | zero =>
      simp only [List.get?] at h
      cases h
      simp [List.enumFrom, List.find?]
    | succ j =>
      simp only [List.get?] at h
      have hd : d ∈ t := List.get?_mem h
      have hnda : a ∉ t := (List.nodup_cons.mp hnd).1
      have hne : (a == d) = false := by
        simp only [beq_eq_false_iff_ne, ne_eq]
        intro e
        exact hnda (e ▸ hd)
      have ht : t.Nodup := (List.nodup_cons.mp hnd).2
      have hrec := ih ht (n + 1) j h
      simp only [List.enumFrom, List.map_cons, List.find?]
      simp only [hne]
      rw [show n + (j + 1) = n + 1 + j by omega]
      exact hrec

/-- Exact hit: on a duplicate-free dictionary, looking up the string stored at
position `i` returns the wrapped index `i32ofNat i` and the string's byte
length. -/
lemma search_domain_get (dict : List (List Nat)) (hnd : dict.Nodup) (i : Nat)
    (d : List Nat) (h : dict.get? i = some d) :
    (DomainRule.new dict).search_domain d =
      some { index := i32ofNat i, matched_len := d.length } := by
  have hfind := find_entry_enumFrom dict hnd 0 i d h
  unfold DomainRule.new DomainRule.search_domain Cedar.build
    Cedar.exact_match_search
  simp only [List.enum]
  rw [hfind]
  simp

/-- Miss: a query that is not a key of the dictionary finds nothing. -/
lemma search_domain_not_mem (dict : List (List Nat)) (s : List Nat)
    (h : s ∉ dict) :
    (DomainRule.new dict).search_domain s = none := by
  unfold DomainRule.new DomainRule.search_domain Cedar.build
    Cedar.exact_match_search
  have hfind :
      ((dict.enum.map (fun p => (p.2, i32ofNat p.1))).find?
        (fun p => p.1 == s)) = none := by
    rw [List.find?_eq_none]
    intro x hx
    simp only [List.mem_map] at hx
    obtain ⟨q, hq, rfl⟩ := hx
    have hqs : q.2 ∈ dict := by
      have : q.2 ∈ dict.enum.map Prod.snd := List.mem_map_of_mem Prod.snd hq
      simpa [List.enum_map_snd] using this
    by_cases e : q.2 = s
    · exact absurd (e ▸ hqs) h
    · simp [e]
  simp only [List.enum] at hfind ⊢
  rw [hfind]
  simp

/-! ### A dictionary long enough to overflow the `k as i32` cast

`DomainRule::new` casts each dictionary position with `k as i32`; for the
entry at position 2 ^ 31 the cast wraps to -(2 ^ 31), so the returned
`MatchResult.index` no longer equals the position, and
`get_domain_by_index` (which casts back with `index as usize`) misses. -/

def bigEntry : List Nat := List.replicate (2 ^ 31) 97

def bigDict : List (List Nat) :=
  (List.range (2 ^ 31 + 1)).map (fun n => List.replicate n 97)

lemma bigDict_nodup : bigDict.Nodup := by
  refine List.Nodup.map ?_ (List.nodup_range _)
  intro a b hab
  have hl := congrArg List.length hab
  simpa using hl

lemma bigDict_get : bigDict.get? (2 ^ 31) = some bigEntry := by
  unfold bigDict bigEntry
  rw [List.get?_map, List.get?_range (by omega)]
  rfl

lemma bigDict_length : bigDict.length = 2 ^ 31 + 1 := by
  simp [bigDict]

lemma i32ofNat_pow31 : i32ofNat (2 ^ 31) = -(2 ^ 31) := by
  unfold i32ofNat
  norm_num

lemma bigEntry_length : bigEntry.length = 2 ^ 31 := by
  unfold bigEntry
  exact List.length_replicate _ _

lemma bigDict_search :
    (DomainRule.new bigDict).search_domain bigEntry =
      some { index := -(2 ^ 31), matched_len := 2 ^ 31 } := by
  rw [search_domain_get bigDict bigDict_nodup (2 ^ 31) bigEntry bigDict_get,
    i32ofNat_pow31, bigEntry_length]

lemma usizeOfI32_neg {j : Int} (h0 : -(2 ^ 31) ≤ j) (h1 : j < 0) :
    2 ^ 64 - 2 ^ 31 ≤ usizeOfI32 j := by
  unfold usizeOfI32
  norm_num at h0 ⊢
  omega

lemma usizeOfI32_ofNat {k : Nat} (h : k < 2 ^ 63) : usizeOfI32 (k : Int) = k := by
  unfold usizeOfI32
  norm_num at h ⊢
  omega

lemma DomainRule.new_dict (d : List (List Nat)) :
    (DomainRule.new d).dict = d := rfl

lemma bigDict_reverse_miss :
    (DomainRule.new bigDict).get_domain_by_index (-(2 ^ 31)) = none := by
  unfold DomainRule.get_domain_by_index
  rw [DomainRule.new_dict, List.get?_eq_none]
  have hbig := usizeOfI32_neg (j := -(2 ^ 31)) (by norm_num) (by norm_num)
  rw [bigDict_length]
  norm_num at hbig ⊢
  omega

/-! ### Claims C1, C2, C8, C10 -/

/-- Claim C1 counterexample: the claim fails as stated because
`DomainRule::new` casts the position with `k as i32`.  On the
duplicate-free dictionary `bigDict`, the string stored at position 2 ^ 31
is found with index -(2 ^ 31) ≠ 2 ^ 31. -/
theorem c1_counterexample :
    bigDict.Nodup ∧
    bigDict.get? (2 ^ 31) = some bigEntry ∧
    (DomainRule.new bigDict).search_domain bigEntry =
      some { index := -(2 ^ 31), matched_len := 2 ^ 31 } ∧
    (-(2 ^ 31) : Int) ≠ ((2 ^ 31 : Nat) : Int) :=
  ⟨bigDict_nodup, bigDict_get, bigDict_search, by norm_num⟩

/-- Claim C1 (amended: the position is below 2 ^ 31, so that the `k as i32`
cast in `DomainRule::new` does not wrap): for every duplicate-free
dictionary and every string `d` stored at position `i < 2 ^ 31`,
`search_domain d` returns the match result with index `i` and matched
length the byte length of `d`. -/
theorem c1_search_hit (dict : List (List Nat)) (hnd : dict.Nodup) (i : Nat)
    (hi : i < 2 ^ 31) (d : List Nat) (h : dict.get? i = some d) :
    (DomainRule.new dict).search_domain d =
      some { index := (i : Int), matched_len := d.length } := by
  rw [search_domain_get dict hnd i d h, i32ofNat_of_lt hi]

def exampleCom : List Nat := [101, 120, 97, 109, 112, 108, 101, 46, 99, 111, 109]

def testOrg : List Nat := [116, 101, 115, 116, 46, 111, 114, 103]

def exampleDict : List (List Nat) := [exampleCom, testOrg]

/-- Witness for C1's amended theorem: the spec scenario dictionary
(["example.com", "test.org"] as byte strings); looking up "example.com"
yields index 0 and matched length 11. -/
theorem c1_search_hit_witness :
    (DomainRule.new exampleDict).search_domain exampleCom =
      some { index := 0, matched_len := 11 } := by
  have h := c1_search_hit exampleDict (by decide) 0 (by norm_num) exampleCom rfl
  simpa using h

/-- Claim C2: for every dictionary and every query string that is not itself
a key of the dictionary (in particular any strict prefix or strict extension
of a stored key), `search_domain` returns `none`. -/
theorem c2_search_miss (dict : List (List Nat)) (s : List Nat)
    (h : s ∉ dict) :
    (DomainRule.new dict).search_domain s = none :=
  search_domain_not_mem dict s h

/-- Witness for C2: on the spec scenario dictionary, the strict prefix
"exampl" and the strict extension "example.com." both miss. -/
theorem c2_search_miss_witness :
    (DomainRule.new exampleDict).search_domain
        [101, 120, 97, 109, 112, 108] = none ∧
    (DomainRule.new exampleDict).search_domain
        [101, 120, 97, 109, 112, 108, 101, 46, 99, 111, 109, 46] = none :=
  ⟨c2_search_miss exampleDict _ (by decide),
   c2_search_miss exampleDict _ (by decide)⟩

/-- Claim C8: building from the empty dictionary succeeds (the model of
`DomainRule::new` is total) and the resulting index matches nothing, the
empty query string included. -/
theorem c8_empty_dict (s : List Nat) :
    (DomainRule.new []).search_domain s = none :=
  search_domain_not_mem [] s (by simp)

/-- Claim C10 counterexample: the round trip fails as stated.  On the
duplicate-free dictionary `bigDict`, the string stored at position 2 ^ 31 is
found with the wrapped index -(2 ^ 31), and `get_domain_by_index` at that
index returns `none` instead of the stored string. -/
theorem c10_counterexample :
    bigDict.Nodup ∧
    bigDict.get? (2 ^ 31) = some bigEntry ∧
    ((DomainRule.new bigDict).search_domain bigEntry).map
        (fun mr => (DomainRule.new bigDict).get_domain_by_index mr.index)
      = some none := by
  refine ⟨bigDict_nodup, bigDict_get, ?_⟩
  rw [bigDict_search]
  simp only [Option.map_some']
  rw [bigDict_reverse_miss]

/-- Claim C10 (amended: the dictionary has at most 2 ^ 31 entries, so that
the `k as i32` cast in `DomainRule::new` does not wrap): in debug builds the
retained reverse mapping round-trips with lookup — for every string of the
dictionary, `get_domain_by_index` applied to the index found by
`search_domain` returns the string — and `get_domain_by_index` returns
`none` for every i32 index outside the dictionary's bounds. -/
theorem c10_reverse_roundtrip (dict : List (List Nat)) (hnd : dict.Nodup)
    (hlen : dict.length ≤ 2 ^ 31) (i : Nat) (d : List Nat)
    (h : dict.get? i = some d) :
    ((DomainRule.new dict).search_domain d).map
        (fun mr => (DomainRule.new dict).get_domain_by_index mr.index)
      = some (some d) ∧
    ∀ j : Int, -(2 ^ 31) ≤ j → j < 2 ^ 31 →
      (j < 0 ∨ dict.length ≤ j.toNat) →
      (DomainRule.new dict).get_domain_by_index j = none := by
  constructor
  · have hilt : i < dict.length := by
      by_contra hcon
      push_neg at hcon
      rw [List.get?_eq_none.mpr hcon] at h
      exact Option.noConfusion h
    have hi31 : i < 2 ^ 31 := lt_of_lt_of_le hilt hlen
    rw [search_domain_get dict hnd i d h, i32ofNat_of_lt hi31]
    simp only [Option.map_some']
    show some ((DomainRule.new dict).get_domain_by_index (i : Int))
      = some (some d)
    unfold DomainRule.get_domain_by_index
    rw [DomainRule.new_dict,
      usizeOfI32_ofNat (lt_of_lt_of_le hi31 (by norm_num)), h]
  · intro j hj0 hj31 hout
    unfold DomainRule.get_domain_by_index
    rw [DomainRule.new_dict, List.get?_eq_none]
    by_cases hneg : j < 0
    · have hbig := usizeOfI32_neg hj0 hneg
      norm_num at hbig hlen ⊢
      omega
    · push_neg at hneg
      have hout2 : dict.length ≤ j.toNat := by
        rcases hout with hlt | hge
        · omega
        · exact hge
      have hu : usizeOfI32 j = j.toNat := by
        unfold usizeOfI32
        rw [Int.emod_eq_of_lt hneg (lt_of_lt_of_le hj31 (by norm_num))]
      rw [hu]
      exact hout2

/-- Witness for C10's amended theorem: on the spec scenario dictionary the
lookup of "example.com" reverse-maps to "example.com", and the out-of-bounds
index 5 reverse-maps to `none`. -/
theorem c10_reverse_roundtrip_witness :
    ((DomainRule.new exampleDict).search_domain exampleCom).map
        (fun mr => (DomainRule.new exampleDict).get_domain_by_index mr.index)
      = some (some exampleCom) ∧
    (DomainRule.new exampleDict).get_domain_by_index 5 = none := by
  have h := c10_reverse_roundtrip exampleDict (by decide)
    (by norm_num [exampleDict]) 0 exampleCom rfl
  refine ⟨h.1, h.2 5 (by norm_num) (by norm_num) (Or.inr ?_)⟩
  norm_num [exampleDict]

/-! ### DNS message model

The hickory-proto `Message` type is an external dependency; the fields the
repository reads and writes are modelled here (spec section 6: 12-byte header
with id, flags and counts, then question/answer sections). -/

inductive MessageType
  | Query
  | Response
deriving DecidableEq

inductive OpCode
  | Query
  | Status
  | Update
deriving DecidableEq

inductive ResponseCode
  | NoError
  | FormErr
  | ServFail
  | NXDomain
deriving DecidableEq

inductive RecordType
  | A
  | AAAA
  | CNAME
  | MX
  | NS
  | PTR
  | SOA
  | TXT
deriving DecidableEq

structure Ipv4Addr where
  o1 : Nat
  o2 : Nat
  o3 : Nat
  o4 : Nat
deriving DecidableEq

structure DnsQuery where
  name : String
  query_type : RecordType
deriving DecidableEq

inductive RData
  | A (addr : Ipv4Addr)
deriving DecidableEq

structure DnsRecord where
  name : String
  ttl : Nat
  rdata : RData
deriving DecidableEq

structure Message where
  id : Nat
  message_type : MessageType
  op_code : OpCode
  recursion_desired : Bool
  recursion_available : Bool
  authoritative : Bool
  response_code : ResponseCode
  queries : List DnsQuery
  answers : List DnsRecord
deriving DecidableEq

/-- hickory `Message::new`: empty message with default header. -/
def Message.new : Message :=
  { id := 0
    message_type := MessageType.Query
    op_code := OpCode.Query
    recursion_desired := false
    recursion_available := false
    authoritative := false
    response_code := ResponseCode.NoError
    queries := []
    answers := [] }

/-- src/dns/server.rs `StaticAHandler::handle` on a decoded request.  The
`Name::from_ascii(q.name().to_ascii())` round trip through the hickory
library is modelled as the identity (it succeeds on any name of a decoded
message); the peer address is unused by the source. -/
def StaticAHandler.handle (req : Message) : Option Message :=
  match req.queries.head? with
  | none => none
  | some q =>
    let resp : Message :=
      { Message.new with
        id := req.id
        message_type := MessageType.Response
        op_code := OpCode.Query
        recursion_available := true
        queries := [q] }
    let resp : Message :=
      if q.query_type = RecordType.A then
        { resp with
          answers := resp.answers ++
            [{ name := q.name, ttl := 60, rdata := RData.A ⟨127, 0, 0, 1⟩ }] }
      else resp
    some { resp with response_code := ResponseCode.NoError }

/-- src/dns/mod.rs `handle_query`, response construction for a decoded
message: echo the id and every query, set the header flags, answer the
first A-type question with 127.0.0.1 / TTL 60, and answer FormErr when the
request carries no question. -/
def handle_query (msg : Message) : Message :=
  let resp : Message :=
    { Message.new with
      id := msg.id
      message_type := MessageType.Response
      op_code := OpCode.Query
      recursion_desired := msg.recursion_desired
      recursion_available := true
      authoritative := true
      queries := msg.queries }
  match msg.queries.head? with
  | some q =>
    let resp : Message :=
      if q.query_type = RecordType.A then
        { resp with
          answers := resp.answers ++
            [{ name := q.name, ttl := 60, rdata := RData.A ⟨127, 0, 0, 1⟩ }] }
      else resp
    { resp with response_code := ResponseCode.NoError }
  | none => { resp with response_code := ResponseCode.FormErr }

/-! ### Claims C3, C4, C5 -/

def noQuestionMsg : Message := { Message.new with id := 7 }

/-- Claim C3 counterexample: the claim fails as stated for the
StaticAHandler request-handling path (src/dns/server.rs, one of the claim's
two cited handlers): on a decodable request with zero questions it returns
`none` — a silent drop — instead of a format-error response. -/
theorem c3_counterexample :
    noQuestionMsg.queries = [] ∧
    StaticAHandler.handle noQuestionMsg = none :=
  ⟨rfl, rfl⟩

/-- Claim C3 (amended: the format-error response is produced by the
`handle_query` path of src/dns/mod.rs; the StaticAHandler path of
src/dns/server.rs silently drops the request): for every decodable request
with zero questions, `handle_query` responds with the request's transaction
id, response code FormErr, and no answers, while `StaticAHandler::handle`
returns no response. -/
theorem c3_formerr (msg : Message) (h : msg.queries = []) :
    (handle_query msg).id = msg.id ∧
    (handle_query msg).response_code = ResponseCode.FormErr ∧
    (handle_query msg).answers = [] ∧
    StaticAHandler.handle msg = none := by
  unfold handle_query StaticAHandler.handle
  rw [h]
  exact ⟨rfl, rfl, rfl, rfl⟩

/-- Witness for C3's amended theorem at the concrete zero-question request
`noQuestionMsg`. -/
theorem c3_formerr_witness :
    (handle_query noQuestionMsg).id = 7 ∧
    (handle_query noQuestionMsg).response_code = ResponseCode.FormErr ∧
    (handle_query noQuestionMsg).answers = [] ∧
    StaticAHandler.handle noQuestionMsg = none := by
  have h := c3_formerr noQuestionMsg rfl
  exact ⟨h.1, h.2.1, h.2.2.1, h.2.2.2⟩

def qA : DnsQuery := { name := "a.test", query_type := RecordType.A }

def qTxt : DnsQuery := { name := "b.test", query_type := RecordType.TXT }

def twoQuestionMsg : Message :=
  { Message.new with id := 9, queries := [qA, qTxt] }

/-- Claim C4 counterexample: the claim fails as stated for
`StaticAHandler::handle` (cited by the claim): on a request with two
questions it echoes back only the first one, so the response does not
contain every question of the request. -/
theorem c4_counterexample :
    twoQuestionMsg.queries = [qA, qTxt] ∧
    (StaticAHandler.handle twoQuestionMsg).map Message.queries = some [qA] ∧
    qTxt ≠ qA := by
  exact ⟨rfl, rfl, by decide⟩

/-- Claim C4 (amended: the `handle_query` path of src/dns/mod.rs echoes back
every question of the request; the StaticAHandler path of src/dns/server.rs
echoes only the first question, the one it inspects): for every decodable
request, the `handle_query` response carries exactly the request's question
list, and the StaticAHandler response carries exactly the first question. -/
theorem c4_echo (msg : Message) :
    (handle_query msg).queries = msg.queries ∧
    ∀ q, msg.queries.head? = some q →
      (StaticAHandler.handle msg).map Message.queries = some [q] := by
  constructor
  · unfold handle_query
    cases hq : msg.queries.head? with
    | none => rfl
    | some q =>
      by_cases ht : q.query_type = RecordType.A
      · simp [ht]
      · simp [ht]
  · intro q hq
    obtain ⟨nm, qt⟩ := q
    unfold StaticAHandler.handle
    rw [hq]
    cases qt
    case A => rfl
    all_goals rfl

/-- Witness for C4's amended theorem at the concrete two-question request
`twoQuestionMsg`. -/
theorem c4_echo_witness :
    (handle_query twoQuestionMsg).queries = [qA, qTxt] ∧
    (StaticAHandler.handle twoQuestionMsg).map Message.queries = some [qA] := by
  have h := c4_echo twoQuestionMsg
  exact ⟨h.1, h.2 qA rfl⟩

/-- Claim C5: for every request whose first question has query type A,
`StaticAHandler::handle` returns Some response with the request's
transaction id, exactly one answer record of type A carrying 127.0.0.1 with
TTL 60, and response code NoError; for every request whose first question
has any other query type, it returns Some response with no answer records
and response code NoError. -/
theorem c5_static_a (req : Message) (q : DnsQuery)
    (h : req.queries.head? = some q) :
    ∃ resp : Message,
      StaticAHandler.handle req = some resp ∧
      resp.id = req.id ∧
      resp.response_code = ResponseCode.NoError ∧
      (q.query_type = RecordType.A →
        resp.answers =
          [{ name := q.name, ttl := 60, rdata := RData.A ⟨127, 0, 0, 1⟩ }]) ∧
      (q.query_type ≠ RecordType.A → resp.answers = []) := by
  obtain ⟨nm, qt⟩ := q
  unfold StaticAHandler.handle
  rw [h]
  cases qt
  case A => exact ⟨_, rfl, rfl, rfl, fun _ => rfl, fun hn => absurd rfl hn⟩
  all_goals exact ⟨_, rfl, rfl, rfl, fun hA => RecordType.noConfusion hA,
    fun _ => rfl⟩

def aTestMsg : Message := { Message.new with id := 42, queries := [qA] }

/-- Witness for C5 at the spec scenario request: an A-type question for
"a.test" with transaction id 42. -/
theorem c5_static_a_witness :
    ∃ resp : Message,
      StaticAHandler.handle aTestMsg = some resp ∧
      resp.id = 42 ∧
      resp.response_code = ResponseCode.NoError ∧
      (qA.query_type = RecordType.A →
        resp.answers =
          [{ name := "a.test", ttl := 60, rdata := RData.A ⟨127, 0, 0, 1⟩ }]) ∧
      (qA.query_type ≠ RecordType.A → resp.answers = []) := by
  exact c5_static_a aTestMsg qA rfl

/-! ### Admission gate and receive loop (src/dns/server.rs) -/

inductive Event
  | acquire
  | release
  | decodeOk
  | decodeErr
  | noResponse
  | encodeFail
  | sent
  | sendFail
deriving DecidableEq

/-- The admitted query-processing unit spawned by `DnsServerImpl::start`
(src/dns/server.rs lines 89-107), compiled to the sequence of semaphore and
processing events it performs.  The unit owns the admission permit for its
whole body (`let _permit = permit;`), and Rust drop semantics release it on
every exit path.  Outcomes of the external operations are parameters:
`decoded` is the result of `Message::from_vec(&payload)`, `handler` the
dynamic request handler, `encode` the result of `resp.to_vec()`, and
`sendOk` the result of `socket.send_to` (whose error is discarded). -/
def unitEvents (decoded : Option Message)
    (handler : Message → Option Message)
    (encode : Message → Option (List Nat)) (sendOk : Bool) : List Event :=
  Event.acquire ::
    match decoded with
    | none => [Event.decodeErr, Event.release]
    | some req =>
      Event.decodeOk ::
        match handler req with
        | none => [Event.noResponse, Event.release]
        | some resp =>
          match encode resp with
          | none => [Event.encodeFail, Event.release]
          | some _ =>
            if sendOk then [Event.sent, Event.release]
            else [Event.sendFail, Event.release]

/-- Replay the semaphore operations of an event trace on an
available-permit count. -/
def replaySem (sem : Nat) : List Event → Nat
  | [] => sem
  | Event.acquire :: es => replaySem (sem - 1) es
  | Event.release :: es => replaySem (sem + 1) es
  | _ :: es => replaySem sem es

/-- Claim C6: every admitted unit of work releases its admission permit
exactly once on every exit path — successful send, decode failure, handler
returning no response, encode failure, and send failure — so its trace holds
exactly one acquire and exactly one release, and replaying the trace returns
the semaphore's available-permit count to its value before admission. -/
theorem c6_permit_release (sem : Nat) (hsem : 0 < sem)
    (decoded : Option Message) (handler : Message → Option Message)
    (encode : Message → Option (List Nat)) (sendOk : Bool) :
    (unitEvents decoded handler encode sendOk).count Event.release = 1 ∧
    (unitEvents decoded handler encode sendOk).count Event.acquire = 1 ∧
    replaySem sem (unitEvents decoded handler encode sendOk) = sem := by
  cases decoded with
  | none =>
    have htr : unitEvents none handler encode sendOk =
        [Event.acquire, Event.decodeErr, Event.release] := by
      simp [unitEvents]
    rw [htr]
    exact ⟨by decide, by decide, by simp only [replaySem]; omega⟩
  | some req =>
    cases hh : handler req with
    | none =>
      have htr : unitEvents (some req) handler encode sendOk =
          [Event.acquire, Event.decodeOk, Event.noResponse, Event.release] := by
        simp [unitEvents, hh]
      rw [htr]
      exact ⟨by decide, by decide, by simp only [replaySem]; omega⟩
    | some resp =>
      cases he : encode resp with
      | none =>
        have htr : unitEvents (some req) handler encode sendOk =
            [Event.acquire, Event.decodeOk, Event.encodeFail,
              Event.release] := by
          simp [unitEvents, hh, he]
        rw [htr]
        exact ⟨by decide, by decide, by simp only [replaySem]; omega⟩
      | some bytes =>
        cases sendOk with
        | false =>
          have htr : unitEvents (some req) handler encode false =
              [Event.acquire, Event.decodeOk, Event.sendFail,
                Event.release] := by
            simp [unitEvents, hh, he]
          rw [htr]
          exact ⟨by decide, by decide, by simp only [replaySem]; omega⟩
        | true =>
          have htr : unitEvents (some req) handler encode true =
              [Event.acquire, Event.decodeOk, Event.sent, Event.release] := by
            simp [unitEvents, hh, he]
          rw [htr]
          exact ⟨by decide, by decide, by simp only [replaySem]; omega⟩

/-- Witness for C6: one available permit, the zero-question request decoded
successfully, handled by StaticAHandler (which drops it), encode and send
irrelevant on that path. -/
theorem c6_permit_release_witness :
    (unitEvents (some noQuestionMsg) StaticAHandler.handle
        (fun _ => some []) true).count Event.release = 1 ∧
    (unitEvents (some noQuestionMsg) StaticAHandler.handle
        (fun _ => some []) true).count Event.acquire = 1 ∧
    replaySem 1 (unitEvents (some noQuestionMsg) StaticAHandler.handle
        (fun _ => some []) true) = 1 :=
  c6_permit_release 1 (by decide) (some noQuestionMsg) StaticAHandler.handle
    (fun _ => some []) true

/-- State of the receive-and-dispatch loop of `DnsServerImpl::start`
(src/dns/server.rs lines 71-111): available semaphore permits, number of
in-flight spawned query-processing units, and whether the shutdown signal
has been observed (the `shutdown.cancelled()` branch of the select). -/
structure LoopState where
  permits : Nat
  inFlight : Nat
  stopped : Bool
deriving DecidableEq

/-- Initial state: the builder creates `Semaphore::new(max_concurrency)`
(src/dns/server.rs line 153) and no unit is in flight. -/
def initLoop (maxc : Nat) : LoopState :=
  { permits := maxc, inFlight := 0, stopped := false }

/-- One step of the loop or of a worker:
* spawn — a datagram arrives while the loop runs, `acquire_owned` succeeds
  (it requires an available permit) and a unit is spawned; with no permit
  available the arrival waits at this single acquire point, and once the
  loop has stopped no arrival is admitted at all;
* finish — an in-flight unit ends and drops its permit;
* cancel — the shutdown signal is observed and the loop breaks. -/
inductive LoopStep : LoopState → LoopState → Prop
  | spawn (s : LoopState) (hrun : s.stopped = false) (hp : 0 < s.permits) :
      LoopStep s ⟨s.permits - 1, s.inFlight + 1, false⟩
  | finish (s : LoopState) (hf : 0 < s.inFlight) :
      LoopStep s ⟨s.permits + 1, s.inFlight - 1, s.stopped⟩
  | cancel (s : LoopState) :
      LoopStep s ⟨s.permits, s.inFlight, true⟩

/-- States reachable by the receive-and-dispatch loop started with
`max_concurrency = maxc`. -/
inductive ReachableLoop (maxc : Nat) : LoopState → Prop
  | init : ReachableLoop maxc (initLoop maxc)
  | step {s t : LoopState} : ReachableLoop maxc s → LoopStep s t →
      ReachableLoop maxc t

/-- Permits and in-flight units always sum to the configured capacity. -/
lemma reachable_sum (maxc : Nat) (s : LoopState)
    (h : ReachableLoop maxc s) : s.permits + s.inFlight = maxc := by
  induction h with
  | init => rfl
  | @step s t hr hs ih =>
    cases hs with
    | spawn hrun hp =>
      show s.permits - 1 + (s.inFlight + 1) = maxc
      omega
    | finish hf =>
      show s.permits + 1 + (s.inFlight - 1) = maxc
      omega
    | cancel =>
      show s.permits + s.inFlight = maxc
      exact ih

/-- Claim C7: in every reachable state of the receive-and-dispatch loop the
number of simultaneously in-flight query-processing units is at most the
configured max_concurrency; a new unit is admitted only when a permit is
available (the spawn step requires one; excess arrivals wait at the single
acquire point or are not admitted once the loop has stopped). -/
theorem c7_concurrency_bound (maxc : Nat) (s : LoopState)
    (h : ReachableLoop maxc s) : s.inFlight ≤ maxc := by
  have hsum := reachable_sum maxc s h
  omega

/-- Witness for C7 at a concrete reachable state: after one admission with
max_concurrency = 3, one unit is in flight. -/
theorem c7_concurrency_bound_witness :
    ({ permits := 2, inFlight := 1, stopped := false } : LoopState).inFlight
      ≤ 3 :=
  c7_concurrency_bound 3 _
    (ReachableLoop.step ReachableLoop.init
      (LoopStep.spawn (initLoop 3) rfl (by decide)))

/-- Lifecycle state of `DnsServerImpl` as observed by `start`
(src/dns/server.rs lines 60-63): the `running` atomic flag, plus the number
of receive loops spawned so far (each `tokio::spawn` of the loop body
increments it). -/
structure ServerState where
  running : Bool
  spawnedLoops : Nat
deriving DecidableEq

inductive StartResult
  | ok
deriving DecidableEq

/-- src/dns/server.rs `DnsServerImpl::start`: `running.swap(true)`; when the
old value was already true, return Ok at once without touching anything;
otherwise spawn the receive loop and return Ok. -/
def DnsServerImpl.start (s : ServerState) : ServerState × StartResult :=
  if s.running then (s, StartResult.ok)
  else ({ running := true, spawnedLoops := s.spawnedLoops + 1 },
    StartResult.ok)

/-- Claim C9: start is idempotent while Running — after a successful first
call the running flag is true, and a second start returns Ok with the state
unchanged: no second receive loop is spawned and the flag stays true. -/
theorem c9_start_idempotent (s : ServerState) :
    ((DnsServerImpl.start s).1).running = true ∧
    DnsServerImpl.start (DnsServerImpl.start s).1 =
      ((DnsServerImpl.start s).1, StartResult.ok) := by
  cases hr : s.running with
  | false => simp [DnsServerImpl.start, hr]
  | true => simp [DnsServerImpl.start, hr]
